import Mathlib

/-!
Verification of the feature-extraction and inference logic of `ml2app.py`
(crypto wallet forensics dashboard).

Python strings are modelled as `List Char`; Python floats as `ℝ`.
The externally trained scikit-learn objects (`scaler`, `kmeans`, `pca`) are
opaque pure functions bundled in `ModelBundle`, mirroring that at inference
time `transform`/`predict` are deterministic maps applied to the feature row.
-/

open Finset in
/-- The two values of the `Network` selectbox (line 144 of the source). -/
inductive Chain where
  | Bitcoin
  | Ethereum
deriving DecidableEq

/-- The two values of the display-mode session state (lines 18-27). -/
inductive Theme where
  | Dark
  | Light
deriving DecidableEq

/-- `toggle_theme` (lines 23-27): flips the session theme. -/
def toggle_theme : Theme → Theme
  | Theme.Dark => Theme.Light
  | Theme.Light => Theme.Dark

/-- The colour palette chosen from the theme (lines 38-49). -/
structure Palette where
  bg_color : String
  card_bg : String
  text_color : String
  border_color : String
  chart_template : String

/-- Lines 38-49: palette values for each theme. -/
def palette : Theme → Palette
  | Theme.Dark =>
    { bg_color := "#0e1117", card_bg := "rgba(255, 255, 255, 0.05)",
      text_color := "#ffffff", border_color := "rgba(255, 255, 255, 0.2)",
      chart_template := "plotly_dark" }
  | Theme.Light =>
    { bg_color := "#ffffff", card_bg := "rgba(0, 0, 0, 0.05)",
      text_color := "#000000", border_color := "rgba(0, 0, 0, 0.1)",
      chart_template := "plotly_white" }

/-- `p_x = address.count(x) / len(address)` (line 117). -/
noncomputable def prob (address : List Char) (x : Char) : ℝ :=
  (address.count x : ℝ) / (address.length : ℝ)

/-- Lines 114-118: `entropy = 0; if address: for x in set(address):
entropy += - p_x * math.log2(p_x)`.  The guard `if address:` is the
emptiness short-circuit; the loop over `set(address)` is the sum over the
finset of distinct characters. -/
noncomputable def entropy (address : List Char) : ℝ :=
  if address = [] then 0
  else ∑ x ∈ address.toFinset, -(prob address x * Real.logb 2 (prob address x))

/-- Lines 120-126: prefix-based categorical code.  `str.startswith` on a
character list is `List.isPrefixOf`. -/
def btc_type (address : List Char) : ℕ :=
  if List.isPrefixOf ['1'] address then 0
  else if List.isPrefixOf ['3'] address then 1
  else if List.isPrefixOf ['b', 'c', '1'] address then 2
  else 3

/-- The single-row DataFrame returned by `get_features`
(columns `length, entropy, chain, btc_type`, line 131). -/
structure FeatureVector where
  length : ℕ
  entropy : ℝ
  chain : ℕ
  btc_type : ℕ

/-- `get_features(address, chain_input)` (lines 113-131). -/
noncomputable def get_features (address : List Char) (chain_input : Chain) : FeatureVector :=
  { length := address.length
    entropy := entropy address
    chain := if chain_input = Chain.Ethereum then 1 else 0
    btc_type := btc_type address }

/-- The numeric row `[length, entropy, chain, btc_type]` fed to the scaler. -/
noncomputable def featureRow (fv : FeatureVector) : Fin 4 → ℝ :=
  ![(fv.length : ℝ), fv.entropy, (fv.chain : ℝ), (fv.btc_type : ℝ)]

/-- The unpickled artifact dictionary (lines 106-109): fitted scaler,
k-means clusterer, PCA projector, and the precomputed visualisation data.
Each fitted model is an opaque pure function. -/
structure ModelBundle where
  kmeans : (Fin 4 → ℝ) → ℕ
  scaler : (Fin 4 → ℝ) → (Fin 4 → ℝ)
  pca : (Fin 4 → ℝ) → ℝ × ℝ
  viz_data : List (ℝ × ℝ × ℕ)

/-- `dist = math.sqrt(user_x ** 2 + user_y ** 2)` (line 168). -/
noncomputable def deviationScore (user_x user_y : ℝ) : ℝ :=
  Real.sqrt (user_x ^ 2 + user_y ^ 2)

/-- `status = "Normal" if dist < 3 else "Anomaly"` (line 169). -/
noncomputable def statusOf (dist : ℝ) : String :=
  if dist < 3 then "Normal" else "Anomaly"

/-- The per-query output of the analyze block (lines 155-171). -/
structure InferenceResult where
  clusterId : ℕ
  coordinates : ℝ × ℝ
  deviationScore : ℝ
  status : String

/-- Lines 156-171 applied to an already-built feature row:
scale, predict the cluster, project to 2-D, compute the deviation. -/
noncomputable def runInference (bundle : ModelBundle) (raw_features : FeatureVector) :
    InferenceResult :=
  let scaled_features := bundle.scaler (featureRow raw_features)
  let cluster_id := bundle.kmeans scaled_features
  let pca_coords := bundle.pca scaled_features
  let dist := deviationScore pca_coords.1 pca_coords.2
  { clusterId := cluster_id
    coordinates := pca_coords
    deviationScore := dist
    status := statusOf dist }

/-- The full analyze block (lines 155-171): features then inference. -/
noncomputable def analyze (bundle : ModelBundle) (address : List Char)
    (chain_choice : Chain) : InferenceResult :=
  runInference bundle (get_features address chain_choice)

/-- What one button press renders: the numeric result plus the only place
the theme reaches the analyze block, the chart template (line 181). -/
structure RenderOutput where
  result : InferenceResult
  features : FeatureVector
  chart_template : String

/-- One analyze interaction as rendered (lines 151-199): the numbers come
from `analyze`, the chart template from the palette. -/
noncomputable def analyzeRender (theme : Theme) (bundle : ModelBundle)
    (address : List Char) (chain_choice : Chain) : RenderOutput :=
  { result := analyze bundle address chain_choice
    features := get_features address chain_choice
    chart_template := (palette theme).chart_template }

/-- Outcome of running a Python snippet: a value, or an uncaught exception. -/
inductive PyResult (α : Type) where
  | ok (val : α)
  | raised (exc : String)

/-- State of the artifact file `unsupervised_pack.pkl` on disk. -/
inductive ArtifactFile where
  | missing
  | unreadable
  | present (pack : ModelBundle)

/-- `open('unsupervised_pack.pkl', 'rb')` followed by `pickle.load` (lines
94-95), by Python file semantics: a missing file raises `FileNotFoundError`,
a file that exists but cannot be read raises `PermissionError`. -/
def readPickle : ArtifactFile → PyResult ModelBundle
  | ArtifactFile.missing => PyResult.raised "FileNotFoundError"
  | ArtifactFile.unreadable => PyResult.raised "PermissionError"
  | ArtifactFile.present pack => PyResult.ok pack

/-- `load_artifacts` (lines 92-97): the `try` block around `readPickle`
whose `except` clause catches exactly `FileNotFoundError` and returns
`None`; any other exception propagates. -/
def load_artifacts (file : ArtifactFile) : PyResult (Option ModelBundle) :=
  match readPickle file with
  | PyResult.ok pack => PyResult.ok (some pack)
  | PyResult.raised e =>
      if e = "FileNotFoundError" then PyResult.ok none else PyResult.raised e

/-- The process after the load attempt (lines 100-104): `st.stop()` halts
the script when `load_artifacts` returned `None`; an uncaught exception
crashes the script run; otherwise the app runs with the bundle. -/
inductive AppState where
  | halted
  | crashed (exc : String)
  | running (pack : ModelBundle)

/-- Lines 100-104: dispatch on the outcome of the load attempt. -/
def startApp (file : ArtifactFile) : AppState :=
  match load_artifacts file with
  | PyResult.ok none => AppState.halted
  | PyResult.ok (some pack) => AppState.running pack
  | PyResult.raised e => AppState.crashed e

/-- The inference pipeline only runs in the `running` state. -/
def pipelineRuns : AppState → Bool
  | AppState.running _ => true
  | AppState.halted => false
  | AppState.crashed _ => false

/-- A concrete bundle (identity scaler, constant clusterer and projector)
used to instantiate theorems quantified over bundles. -/
noncomputable def trivialBundle : ModelBundle :=
  { kmeans := fun _ => 0
    scaler := id
    pca := fun _ => ((0 : ℝ), (0 : ℝ))
    viz_data := [] }

/-- A concrete feature vector used to instantiate quantified theorems. -/
noncomputable def fv0 : FeatureVector :=
  { length := 34, entropy := 0, chain := 0, btc_type := 0 }

/-- The address of the end-to-end scenario in the spec. -/
def boatAddress : List Char := "1BoatSLRHtKNngkdXEeobR76b53LETtpyT".toList

/-! ## Helper lemmas -/

lemma prob_pos {address : List Char} {x : Char} (hx : x ∈ address) :
    0 < prob address x := by
  have hlen : 0 < address.length := List.length_pos.mpr (List.ne_nil_of_mem hx)
  have hcnt : 0 < address.count x := List.count_pos_iff.mpr hx
  exact div_pos (by exact_mod_cast hcnt) (by exact_mod_cast hlen)

lemma prob_le_one {address : List Char} {x : Char} (hx : x ∈ address) :
    prob address x ≤ 1 := by
  have hlen : 0 < address.length := List.length_pos.mpr (List.ne_nil_of_mem hx)
  have hcnt : address.count x ≤ address.length := List.count_le_length x address
  rw [prob, div_le_one (by exact_mod_cast hlen)]
  exact_mod_cast hcnt

lemma entropyTerm_nonneg {address : List Char} {x : Char} (hx : x ∈ address) :
    0 ≤ -(prob address x * Real.logb 2 (prob address x)) := by
  have hp := prob_pos hx
  have hl : Real.logb 2 (prob address x) ≤ 0 :=
    Real.logb_nonpos one_lt_two hp.le (prob_le_one hx)
  have := mul_nonneg hp.le (neg_nonneg.mpr hl)
  linarith [this]

lemma entropyTerm_eq_zero_iff {address : List Char} {x : Char} (hx : x ∈ address) :
    -(prob address x * Real.logb 2 (prob address x)) = 0 ↔
      address.count x = address.length := by
  have hp := prob_pos hx
  have hlen : 0 < address.length := List.length_pos.mpr (List.ne_nil_of_mem hx)
  rw [neg_eq_zero, mul_eq_zero]
  constructor
  · rintro (h | h)
    · exact absurd h hp.ne'
    · rw [Real.logb_eq_zero] at h
      rcases h with h | h | h | h | h | h
      · norm_num at h
      · norm_num at h
      · norm_num at h
      · exact absurd h hp.ne'
      · rw [prob, div_eq_one_iff_eq (by exact_mod_cast hlen.ne')] at h
        exact_mod_cast h
      · rw [h] at hp
        norm_num at hp
  · intro h
    right
    have : prob address x = 1 := by
      rw [prob, h, div_self (by exact_mod_cast hlen.ne')]
    rw [this, Real.logb_one]

lemma entropy_of_ne_nil {address : List Char} (h : address ≠ []) :
    entropy address =
      ∑ x ∈ address.toFinset, -(prob address x * Real.logb 2 (prob address x)) := by
  rw [entropy, if_neg h]

/-! ## Claim theorems -/

/-- Claim C1: for every non-empty address, the entropy field of
`get_features` is the Shannon entropy of the character-frequency
distribution; it is nonnegative, and it is zero exactly when the address
is a single repeated character. -/
theorem entropy_shannon_spec (s : List Char) (h : s ≠ []) :
    (∀ chain_input : Chain, (get_features s chain_input).entropy = entropy s) ∧
    entropy s = ∑ x ∈ s.toFinset,
      -(((s.count x : ℝ) / (s.length : ℝ)) *
        Real.logb 2 ((s.count x : ℝ) / (s.length : ℝ))) ∧
    0 ≤ entropy s ∧
    (entropy s = 0 ↔ ∃ c, s = List.replicate s.length c) := by
  have hform := entropy_of_ne_nil h
  have hnn : ∀ x ∈ s.toFinset, 0 ≤ -(prob s x * Real.logb 2 (prob s x)) :=
    fun x hx => entropyTerm_nonneg (List.mem_toFinset.mp hx)
  refine ⟨fun _ => rfl, hform, ?_, ?_⟩
  · rw [hform]
    exact Finset.sum_nonneg hnn
  · rw [hform, Finset.sum_eq_zero_iff_of_nonneg hnn]
    constructor
    · intro hall
      obtain ⟨c, hc⟩ := List.exists_mem_of_ne_nil s h
      have hcount : s.count c = s.length :=
        (entropyTerm_eq_zero_iff hc).mp (hall c (List.mem_toFinset.mpr hc))
      refine ⟨c, List.eq_replicate_iff.mpr ⟨rfl, fun b hb => ?_⟩⟩
      exact (List.count_eq_length.mp hcount b hb).symm
    · rintro ⟨c, hc⟩ x hx
      have hxs := List.mem_toFinset.mp hx
      have hxc : x = c := List.eq_of_mem_replicate (hc ▸ hxs)
      subst hxc
      refine (entropyTerm_eq_zero_iff hxs).mpr ?_
      rw [hc]
      simp [List.count_replicate_self, List.length_replicate]

/-- Witness for C1 at the concrete address `"aa"`. -/
theorem entropy_shannon_spec_witness :
    (['a', 'a'] : List Char) ≠ [] ∧
    (0 ≤ entropy ['a', 'a'] ∧
      (entropy ['a', 'a'] = 0 ↔
        ∃ c, (['a', 'a'] : List Char) =
          List.replicate (['a', 'a'] : List Char).length c)) :=
  ⟨by decide, (entropy_shannon_spec ['a', 'a'] (by decide)).2.2⟩

/-- Claim C2: the `btc_type` code is 0 for addresses starting with `"1"`,
1 for `"3"`, 2 for `"bc1"`, and 3 otherwise; in particular every
Ethereum-style `"0x..."` address gets code 3. -/
theorem btc_type_code_spec (address : List Char) :
    (List.isPrefixOf ['1'] address = true → btc_type address = 0) ∧
    (List.isPrefixOf ['3'] address = true → btc_type address = 1) ∧
    (List.isPrefixOf ['b', 'c', '1'] address = true → btc_type address = 2) ∧
    (List.isPrefixOf ['1'] address = false →
      List.isPrefixOf ['3'] address = false →
      List.isPrefixOf ['b', 'c', '1'] address = false → btc_type address = 3) ∧
    (∀ rest : List Char, btc_type ('0' :: 'x' :: rest) = 3) := by
  refine ⟨?_, ?_, ?_, ?_, ?_⟩
  · intro h1
    simp [btc_type, h1]
  · intro h3
    cases address with
    | nil => simp [List.isPrefixOf] at h3
    | cons a l =>
      simp only [List.isPrefixOf, Bool.and_eq_true, beq_iff_eq] at h3
      obtain ⟨rfl, -⟩ := h3
      simp [btc_type, List.isPrefixOf]
  · intro hb
    match address with
    | [] => simp [List.isPrefixOf] at hb
    | a :: [] => simp [List.isPrefixOf] at hb
    | a :: b :: l =>
      simp only [List.isPrefixOf, Bool.and_eq_true, beq_iff_eq] at hb
      obtain ⟨rfl, rfl, h1⟩ := hb
      simp [btc_type, List.isPrefixOf, h1]
  · intro h1 h3 hb
    simp [btc_type, h1, h3, hb]
  · intro rest
    simp [btc_type, List.isPrefixOf]

/-- Witness for C2 at one concrete address per prefix class. -/
theorem btc_type_code_spec_witness :
    btc_type ['1', 'A'] = 0 ∧ btc_type ['3', 'J'] = 1 ∧
    btc_type ['b', 'c', '1', 'q'] = 2 ∧ btc_type ['0', 'x', 'a'] = 3 :=
  ⟨(btc_type_code_spec ['1', 'A']).1 (by decide),
   (btc_type_code_spec ['3', 'J']).2.1 (by decide),
   (btc_type_code_spec ['b', 'c', '1', 'q']).2.2.1 (by decide),
   (btc_type_code_spec ['0', 'x', 'a']).2.2.2.1 (by decide) (by decide) (by decide)⟩

/-- Claim C3: the deviation score of a 2-D projection is the Euclidean
distance from the origin, is nonnegative, and the status is `"Anomaly"`
exactly at deviation ≥ 3 and `"Normal"` exactly below 3. -/
theorem deviation_status_spec (x y : ℝ) :
    deviationScore x y = Real.sqrt (x ^ 2 + y ^ 2) ∧
    0 ≤ deviationScore x y ∧
    (statusOf (deviationScore x y) = "Anomaly" ↔ 3 ≤ deviationScore x y) ∧
    (statusOf (deviationScore x y) = "Normal" ↔ deviationScore x y < 3) := by
  refine ⟨rfl, Real.sqrt_nonneg _, ?_, ?_⟩
  · constructor
    · intro hs
      by_contra hlt
      simp only [statusOf, if_pos (not_le.mp hlt)] at hs
      exact absurd hs (by decide)
    · intro hge
      simp only [statusOf, if_neg (not_lt.mpr hge)]
  · constructor
    · intro hs
      by_contra hge
      simp only [statusOf, if_neg hge] at hs
      exact absurd hs (by decide)
    · intro hlt
      simp only [statusOf, if_pos hlt]

/-- Counterexample to claim C4 as stated: for a file that exists but is
unreadable, the load attempt raises `PermissionError`, which the
`except FileNotFoundError` clause does not catch, instead of yielding the
recognizable `None` state. -/
theorem load_artifacts_unreadable_raises :
    load_artifacts ArtifactFile.unreadable = PyResult.raised "PermissionError" ∧
    load_artifacts ArtifactFile.unreadable ≠ PyResult.ok none := by
  constructor
  · rfl
  · intro hcontra
    rw [show load_artifacts ArtifactFile.unreadable
        = PyResult.raised "PermissionError" from rfl] at hcontra
    exact PyResult.noConfusion hcontra

/-- Claim C4 (amended): if the artifact file is absent, the load attempt
yields `None` without a fault, the app halts, and the pipeline never
runs; with a present readable file the app runs with the bundle. -/
theorem load_artifacts_missing_halts :
    load_artifacts ArtifactFile.missing = PyResult.ok none ∧
    startApp ArtifactFile.missing = AppState.halted ∧
    pipelineRuns (startApp ArtifactFile.missing) = false ∧
    (∀ pack : ModelBundle,
      startApp (ArtifactFile.present pack) = AppState.running pack) :=
  ⟨rfl, rfl, rfl, fun _ => rfl⟩

/-- Claim C5: on the empty address, `get_features` returns entropy 0 and
length 0; the emptiness guard short-circuits the frequency loop, so no
division by the zero length is reached. -/
theorem get_features_empty (chain_input : Chain) :
    (get_features [] chain_input).entropy = 0 ∧
    (get_features [] chain_input).length = 0 :=
  ⟨by simp [get_features, entropy], rfl⟩

/-- Claim C6: for a fixed bundle and a fixed feature vector, any two runs
of the inference pipeline agree on cluster id, coordinates and deviation
score: the pipeline is a deterministic function of its inputs. -/
theorem inference_deterministic (bundle : ModelBundle) (fv : FeatureVector)
    (r1 r2 : InferenceResult)
    (h1 : r1 = runInference bundle fv) (h2 : r2 = runInference bundle fv) :
    r1.clusterId = r2.clusterId ∧ r1.coordinates = r2.coordinates ∧
      r1.deviationScore = r2.deviationScore := by
  subst h1 h2
  exact ⟨rfl, rfl, rfl⟩

/-- Witness for C6 at a concrete bundle and feature vector. -/
theorem inference_deterministic_witness :
    (runInference trivialBundle fv0).clusterId
        = (runInference trivialBundle fv0).clusterId ∧
      (runInference trivialBundle fv0).coordinates
        = (runInference trivialBundle fv0).coordinates ∧
      (runInference trivialBundle fv0).deviationScore
        = (runInference trivialBundle fv0).deviationScore :=
  inference_deterministic trivialBundle fv0 _ _ rfl rfl

/-- Claim C7: end-to-end scenario for
`"1BoatSLRHtKNngkdXEeobR76b53LETtpyT"` with chain `Bitcoin`: btc_type 0,
chain 0, length 34, entropy per the Shannon formula, and for any loaded
bundle the pipeline yields exactly one cluster id and a nonnegative
deviation score. -/
theorem boat_end_to_end :
    btc_type boatAddress = 0 ∧
    (get_features boatAddress Chain.Bitcoin).chain = 0 ∧
    (get_features boatAddress Chain.Bitcoin).length = 34 ∧
    (get_features boatAddress Chain.Bitcoin).entropy =
      ∑ x ∈ boatAddress.toFinset,
        -(((boatAddress.count x : ℝ) / (boatAddress.length : ℝ)) *
          Real.logb 2 ((boatAddress.count x : ℝ) / (boatAddress.length : ℝ))) ∧
    ∀ bundle : ModelBundle,
      (∃! c : ℕ, (analyze bundle boatAddress Chain.Bitcoin).clusterId = c) ∧
      0 ≤ (analyze bundle boatAddress Chain.Bitcoin).deviationScore := by
  refine ⟨by decide, rfl, by decide, ?_,
    fun bundle => ⟨⟨_, rfl, fun y hy => hy.symm⟩, ?_⟩⟩
  · show entropy boatAddress = _
    rw [entropy, if_neg (by decide)]
    rfl
  · exact Real.sqrt_nonneg _

/-- Claim C8: the theme toggle is cosmetic: for any two theme values, the
extracted features and the cluster id, coordinates and deviation score of
one interaction are identical; the theme only selects the chart template. -/
theorem theme_cosmetic (t1 t2 : Theme) (bundle : ModelBundle)
    (address : List Char) (chain_choice : Chain) :
    (analyzeRender t1 bundle address chain_choice).features
      = (analyzeRender t2 bundle address chain_choice).features ∧
    (analyzeRender t1 bundle address chain_choice).result.clusterId
      = (analyzeRender t2 bundle address chain_choice).result.clusterId ∧
    (analyzeRender t1 bundle address chain_choice).result.coordinates
      = (analyzeRender t2 bundle address chain_choice).result.coordinates ∧
    (analyzeRender t1 bundle address chain_choice).result.deviationScore
      = (analyzeRender t2 bundle address chain_choice).result.deviationScore :=
  ⟨rfl, rfl, rfl, rfl⟩

/-- Claim C9: the btc_type field depends only on the address, never on
the chain selector; an address starting with `"1"` keeps code 0 even with
Ethereum selected. -/
theorem btc_type_chain_independent (address : List Char) :
    (get_features address Chain.Bitcoin).btc_type
      = (get_features address Chain.Ethereum).btc_type ∧
    (List.isPrefixOf ['1'] address = true →
      (get_features address Chain.Ethereum).btc_type = 0) := by
  refine ⟨rfl, fun h => ?_⟩
  simp [get_features, btc_type, h]

/-- Witness for C9 at the concrete address `"1"`. -/
theorem btc_type_chain_independent_witness :
    (get_features ['1'] Chain.Ethereum).btc_type = 0 :=
  (btc_type_chain_independent ['1']).2 (by decide)

/-- Claim C10: entropy and length are invariant under permutation of the
address string. -/
theorem entropy_length_perm_invariant (s t : List Char) (h : s.Perm t) :
    entropy s = entropy t ∧ s.length = t.length := by
  refine ⟨?_, h.length_eq⟩
  by_cases hs : s = []
  · subst hs
    rw [List.Perm.eq_nil h.symm]
  · have ht : t ≠ [] := fun hteq => hs (List.Perm.eq_nil (hteq ▸ h))
    rw [entropy, entropy, if_neg hs, if_neg ht,
      List.toFinset_eq_of_perm _ _ h]
    refine Finset.sum_congr rfl fun x hx => ?_
    rw [prob, prob, h.count_eq, h.length_eq]

/-- Witness for C10 on the permuted pair `"ab"`, `"ba"`. -/
theorem entropy_length_perm_invariant_witness :
    entropy ['a', 'b'] = entropy ['b', 'a'] ∧
    (['a', 'b'] : List Char).length = (['b', 'a'] : List Char).length :=
  entropy_length_perm_invariant ['a', 'b'] ['b', 'a'] (by decide)
